import Mathlib

/-!
Verification development for the `mokshiri_scraper` repository.

The repository is a collection of Python scraping pipelines.  This file
shallowly embeds the parts of the code that the documented properties talk
about:

* the timezone handling and "published today" freshness filter
  (`kdramastars_scraper.py` lines 341-346, `scrapers/kbizoom_scraper.py`
  `is_published_today`);
* the MySQL `INSERT ... ON DUPLICATE KEY UPDATE` upsert
  (`kdramastars_scraper.py` `db_upsert` / `UPSERT_SQL`,
  `scrapers/kbizoom_scraper.py` `upsert_article`);
* the GPT rewriter fallback logic
  (`scrapers/gpt_rewriter_expanded.py` `rewrite_with_gpt_expanded`);
* the per-candidate guard chain of the kdramastars scraper and the
  per-link guard chain of the kbizoom scraper;
* the pagination loops;
* the translation batch job (`lecto_localize.py`);
* the Instagram publish/cleanup flows (`insta_post_test.py` `main`,
  `insta_post.py` `process_and_publish`);
* the JSON snapshot merge/backup logic
  (`scrapers/kareboo_scraper.py`, `scrapers/knews_scraper.py`).

External effects (network fetches, the MySQL server, the object store, the
OpenAI / Lecto APIs, the filesystem) are modelled as explicit oracle
parameters or outcome values; the local control flow and data manipulation
are translated statement by statement from the Python source.
-/

namespace Mokshiri

/-! ## Datetime model

Python `datetime` values are modelled at minute granularity.  A value
carries a wall-clock reading `clock` (minutes since an arbitrary epoch, as
read on a clock in the own timezone of the value) and, when the value is
timezone-aware, the UTC offset `tz` of that timezone in minutes
(`tz = none` models a naive datetime).  `pytz` timezones are modelled by
their fixed offset in minutes (Asia/Kolkata, the default `TIMEZONE`, is
`+330`; the scrapers read the zone from the environment, so the offset is a
parameter below). -/

/-- Minutes per calendar day. -/
def minutesPerDay : Int := 1440

/-- Model of a Python `datetime`: wall-clock minutes plus optional UTC
offset (in minutes) of the attached `tzinfo`. -/
structure PyDateTime where
  clock : Int
  tz : Option Int
  deriving Repr, DecidableEq

/-- `pytz.UTC.localize(dt)` on a naive datetime: attach UTC without
changing the wall-clock reading. -/
def utcLocalize (d : PyDateTime) : PyDateTime :=
  { clock := d.clock, tz := some 0 }

/-- The absolute instant (minutes since epoch, UTC) denoted by an aware
datetime; a naive datetime is read with offset 0, but the code below only
applies this to aware values. -/
def instantOf (d : PyDateTime) : Int :=
  d.clock - d.tz.getD 0

/-- `dt.astimezone(tz)` for a fixed-offset timezone `off` (minutes). -/
def astimezone (d : PyDateTime) (off : Int) : PyDateTime :=
  { clock := instantOf d + off, tz := some off }

/-- `dt.date()`, as an index of calendar days since the epoch. -/
def dateOf (d : PyDateTime) : Int :=
  d.clock.fdiv minutesPerDay

/-- `datetime.now(TIMEZONE)` where `nowUTC` is the current absolute instant
in minutes and `off` the offset of the configured timezone. -/
def nowIn (nowUTC off : Int) : PyDateTime :=
  { clock := nowUTC + off, tz := some off }

/-- `scrapers/kbizoom_scraper.py::is_published_today` (lines 226-233),
also the inline freshness check of `kdramastars_scraper.py` (lines
341-344): `None` dates are rejected; a naive datetime is localized to UTC;
the date is compared to the current date in the configured timezone. -/
def is_published_today (dt : Option PyDateTime) (off nowUTC : Int) : Bool :=
  match dt with
  | none => false
  | some d =>
    let d := if d.tz.isNone then utcLocalize d else d
    let localDt := astimezone d off
    dateOf localDt == dateOf (nowIn nowUTC off)

/-- The local calendar date the code assigns to an extracted datetime: the
date of `astimezone(d, off)` after UTC-localizing naive values.  This is
exactly the left-hand side of the comparison in `is_published_today`. -/
def localDateOf (d : PyDateTime) (off : Int) : Int :=
  dateOf (astimezone (if d.tz.isNone then utcLocalize d else d) off)

/-- Modelled from the spec (for the refinement claim C10): the rejected
alternative reading in which a naive timestamp would be interpreted as
local time in the configured timezone (`TIMEZONE.localize(dt)`), so its
wall-clock reading is already the local clock. -/
def naiveAsLocalDecision (d : PyDateTime) (off nowUTC : Int) : Bool :=
  dateOf { clock := d.clock, tz := some off } == dateOf (nowIn nowUTC off)

/-! ## Persistence layer: the `articles` upsert

`kdramastars_scraper.py` `UPSERT_SQL`/`db_upsert` (lines 100-148) and
`scrapers/kbizoom_scraper.py` `upsert_article` (lines 236-287) run the same
statement:

    INSERT INTO articles
      (category, title, link, summary, image_url, author, published,
       created_at, views, is_featured, featured_rank, last_metrics_update,
       trend_score, uuid)
    VALUES (...NOW() for created_at...)
    ON DUPLICATE KEY UPDATE
      title = VALUES(title), summary = VALUES(summary),
      image_url = VALUES(image_url), author = VALUES(author),
      published = VALUES(published), last_metrics_update = NOW()

with `link` UNIQUE.  Strings are truncated by Python slices before binding
(`title[:500]`, `link[:1000]`, `image_url[:1000]`, `author[:255]`), and a
falsy (empty) string binds SQL NULL (`... if record.get("title") else
None`).  The MySQL UNIQUE index never treats NULL as conflicting, so a NULL
link always inserts.  `NOW()` is modelled by an explicit `now` parameter;
`trend_score` (always `0.0` at the call sites) is modelled as an `Int`. -/

/-- Python slice `s[:n]` (by code points). -/
def pyTake (s : String) (n : Nat) : String :=
  (s.toList.take n).asString

/-- `(x[:n]) if x else None`: the truncate-or-NULL binding applied to the
string parameters of the upsert. -/
def optTrunc (s : String) (n : Nat) : Option String :=
  if s = "" then none else some (pyTake s n)

/-- The record dict handed to `db_upsert` / `upsert_article` by the
scrapers. -/
structure UpsertRec where
  category : String
  title : String
  link : String
  summary : String
  image_url : String
  author : String
  published : String
  views : Int
  is_featured : Int
  featured_rank : Option Int
  last_metrics_update : Option Int
  trend_score : Int
  uuid_bytes : Nat
  deriving Repr, DecidableEq

/-- A stored row of the `articles` table (the columns the upsert touches).
`Option String` columns are nullable in the parameter binding of the statement. -/
structure ArticleRow where
  category : String
  title : Option String
  link : Option String
  summary : String
  image_url : Option String
  author : Option String
  published : String
  created_at : Int
  views : Int
  is_featured : Int
  featured_rank : Option Int
  last_metrics_update : Option Int
  trend_score : Int
  uuid : Nat
  deriving Repr, DecidableEq

/-- The row the INSERT branch stores (`created_at = NOW()`). -/
def insertRowOf (r : UpsertRec) (now : Int) : ArticleRow :=
  { category := r.category
    title := optTrunc r.title 500
    link := optTrunc r.link 1000
    summary := r.summary
    image_url := optTrunc r.image_url 1000
    author := optTrunc r.author 255
    published := r.published
    created_at := now
    views := r.views
    is_featured := r.is_featured
    featured_rank := r.featured_rank
    last_metrics_update := r.last_metrics_update
    trend_score := r.trend_score
    uuid := r.uuid_bytes }

/-- The ON DUPLICATE KEY UPDATE branch applied to the conflicting row:
only title, summary, image_url, author, published and
`last_metrics_update = NOW()` change. -/
def updateRowOf (row : ArticleRow) (r : UpsertRec) (now : Int) : ArticleRow :=
  { row with
    title := optTrunc r.title 500
    summary := r.summary
    image_url := optTrunc r.image_url 1000
    author := optTrunc r.author 255
    published := r.published
    last_metrics_update := some now }

/-- Effect of one execution of the upsert statement on the table.  A NULL
link never conflicts (MySQL UNIQUE ignores NULLs); otherwise a conflict
with the `link` of an existing row updates that row in place, else the row is
appended.  (When the unique constraint holds, at most one row can carry
the link, so the `map` touches at most one row.) -/
def upsertApply (t : List ArticleRow) (r : UpsertRec) (now : Int) :
    List ArticleRow :=
  match optTrunc r.link 1000 with
  | none => t ++ [insertRowOf r now]
  | some l =>
    if t.any (fun row => row.link == some l) then
      t.map (fun row => if row.link == some l then updateRowOf row r now else row)
    else
      t ++ [insertRowOf r now]

/-- The rows of the table carrying a given (non-NULL) link value. -/
def linkRows (t : List ArticleRow) (l : String) : List ArticleRow :=
  t.filter (fun row => row.link == some l)

/-- A sequence of upsert calls (within one run or across runs), each with
its record and its `NOW()` instant. -/
def upsertRun (t : List ArticleRow) (calls : List (UpsertRec × Int)) :
    List ArticleRow :=
  calls.foldl (fun acc c => upsertApply acc c.1 c.2) t

/-- Where a call to `db_upsert` can fail: acquiring the pooled connection,
executing the statement, or committing. -/
inductive DbOutcome
  | getConnFail
  | execFail
  | commitFail
  | ok
  deriving Repr, DecidableEq

/-- Observable outcome of one `db_upsert` call: the returned boolean, the
committed table contents, whether a pooled connection was acquired, and
whether it was closed. -/
structure DbCallResult where
  ret : Bool
  table : List ArticleRow
  acquired : Bool
  closed : Bool
  deriving Repr, DecidableEq

/-- `kdramastars_scraper.py::db_upsert` (lines 114-148) /
`kbizoom_scraper.py::upsert_article` (lines 236-287): the whole body is a
try/except/finally.  If `get_connection` raises, `conn` is still `None`,
the except branch returns False and the finally branch closes nothing.  If
execute or commit raises, the except branch rolls the transaction back
(nothing committed, table unchanged) and returns False; the finally branch
closes the connection.  On success the statement commits and True is
returned, the finally branch again closing the connection. -/
def db_upsert (o : DbOutcome) (t : List ArticleRow) (r : UpsertRec)
    (now : Int) : DbCallResult :=
  match o with
  | .getConnFail => { ret := false, table := t, acquired := false, closed := false }
  | .execFail => { ret := false, table := t, acquired := true, closed := true }
  | .commitFail => { ret := false, table := t, acquired := true, closed := true }
  | .ok => { ret := true, table := upsertApply t r now, acquired := true, closed := true }

/-! ## Content transformer: `scrapers/gpt_rewriter_expanded.py`

`rewrite_with_gpt_expanded(title, summary)` sends a prompt to the OpenAI
API and post-processes the response text.  The network call and
`json.loads` are external; they are modelled as an outcome value and a
parse oracle.  Everything else (strip, brace search, slicing, the
line-split fallback, the outer catch-all) is translated from the source.
Only `"\n"` is modelled as a line terminator in `str.splitlines`. -/

/-- The opening-brace character (`json` object start). -/
def lbrace : Char := Char.ofNat 123

/-- The closing-brace character. -/
def rbrace : Char := Char.ofNat 125

/-- Python `s.find(c)`: first index or -1. -/
def pyFind (s : String) (c : Char) : Int :=
  match s.toList.indexOf? c with
  | some i => (i : Int)
  | none => -1

/-- Python `s.rfind(c)`: last index or -1. -/
def pyRfind (s : String) (c : Char) : Int :=
  match s.toList.reverse.indexOf? c with
  | some i => ((s.toList.length - 1 - i : Nat) : Int)
  | none => -1

/-- Python slice `s[start:stop]` (for 0 ≤ start, stop). -/
def pySlice (s : String) (start stop : Nat) : String :=
  ((s.toList.drop start).take (stop - start)).asString

/-- Python `s.strip()`: drop leading and trailing whitespace (implemented
over the character list so that proofs can evaluate it). -/
def pyStrip (s : String) : String :=
  ((s.toList.dropWhile Char.isWhitespace).reverse.dropWhile
      Char.isWhitespace).reverse.asString

/-- Python `sep.join(parts)`. -/
def pyJoin (sep : String) : List String → String
  | [] => ""
  | x :: xs => xs.foldl (fun acc y => acc ++ sep ++ y) x

/-- Splitting a character list at `"\n"` characters, keeping a trailing
empty segment (adjusted by `pySplitlines`). -/
def splitNewlines : List Char → List Char → List String
  | [], acc => [acc.reverse.asString]
  | c :: rest, acc =>
    if c = '\n' then acc.reverse.asString :: splitNewlines rest []
    else splitNewlines rest (c :: acc)

/-- Python `s.splitlines()` restricted to `"\n"` terminators: empty string
gives no lines, and a trailing terminator produces no trailing empty
line. -/
def pySplitlines (s : String) : List String :=
  match s.toList with
  | [] => []
  | cs =>
    let parts := splitNewlines cs []
    if cs.getLast? = some '\n' then parts.dropLast else parts

/-- Result of the external chat-completion call: either the request raised
(network error, bad key, ...) or it returned a message content string. -/
inductive GptOutcome
  | gptRaise
  | gptOk (content : String)
  deriving Repr, DecidableEq

/-- Result of `json.loads` on the brace-delimited slice, as far as the
calling code can observe: a decode error (caught and ignored, falling
through to the line-split fallback), an object with optional string
`header`/`summary` fields, or anything else (a non-dict value, or a dict
whose field is not a string — `.get`/`.strip()` then raises and the outer
`except Exception` returns the originals). -/
inductive JsonParseResult
  | decodeErr
  | obj (header : Option String) (summary : Option String)
  | nonStr
  deriving Repr, DecidableEq

/-- Lines 69-72 of `gpt_rewriter_expanded.py`: the non-JSON fallback.
`header` is the stripped first line of the response (or the original title
when there are no lines); `summary` is the stripped join of the remaining
lines (or the original summary when there is at most one line). -/
def gptLinesFallback (text title summary : String) : String × String :=
  let lines := pySplitlines text
  let header := match lines with
    | [] => title
    | l0 :: _ => pyStrip l0
  let body := if lines.length > 1 then pyStrip (pyJoin " " (lines.drop 1))
              else summary
  (header, body)

/-- `scrapers/gpt_rewriter_expanded.py::rewrite_with_gpt_expanded` (lines
45-76), returning the `(header, summary)` pair of the result dict.  On any
exception the originals are returned; otherwise the stripped response text
is searched for an outermost brace pair, `json.loads` is tried on the
slice, string fields are stripped (missing keys default to the stripped
originals), a decode failure falls through to the line-split fallback, and
a non-string parse raises into the outer handler. -/
def rewrite_with_gpt_expanded (title summary : String) (out : GptOutcome)
    (jsonLoads : String → JsonParseResult) : String × String :=
  match out with
  | .gptRaise => (title, summary)
  | .gptOk content =>
    let text := pyStrip content
    let start := pyFind text lbrace
    let stop := pyRfind text rbrace
    if start ≠ -1 ∧ stop ≠ -1 then
      match jsonLoads (pySlice text start.toNat (stop.toNat + 1)) with
      | .obj h s => (pyStrip (h.getD title), pyStrip (s.getD summary))
      | .nonStr => (title, summary)
      | .decodeErr => gptLinesFallback text title summary
    else
      gptLinesFallback text title summary

/-! ## Per-candidate processing steps of the scrapers

The HTML extraction heuristics (`extract_main_text`, `extract_image`,
`extract_published_date`, `extract_author`, BeautifulSoup selectors) are
the abstraction boundary: their results are parameters.  What is embedded
is the guard chain that decides whether a row is written, and how the
record is assembled. -/

/-- Stand-in for `datetime.isoformat()`: any injective rendering of the
datetime works, since no claim inspects the format of the string. -/
def isoformat (d : PyDateTime) : String :=
  toString d.clock ++ "," ++ toString (d.tz.getD 0) ++ toString d.tz.isSome

/-- The optional rewriter of `kdramastars_scraper.py`: the module import
may have failed (`HAVE_REWRITER = False`), otherwise each call has a
`GptOutcome`. -/
inductive RewriterCfg
  | absent
  | present (out : GptOutcome)
  deriving Repr, DecidableEq

/-- `kdramastars_scraper.py::scrape_category_with_debug`, per-candidate
body (lines 318-378): resolve the title (`h1` text, else the anchor text,
else the href), skip when the body is missing or shorter than 60
characters, skip when no publish date was parsed, localize naive dates to
UTC, skip when the local calendar date is not today, apply the optional
rewriter with empty-result and exception fallbacks, and assemble the
record passed to `db_upsert`.  `none` means the candidate is skipped and
no row is written. -/
def kdsStep (category titleFromPage titleGuess href body image_url author : String)
    (dt : Option PyDateTime) (off nowUTC : Int) (rw : RewriterCfg)
    (jsonLoads : String → JsonParseResult) (uuid : Nat) : Option UpsertRec :=
  let title := if titleFromPage ≠ "" then titleFromPage
               else if titleGuess ≠ "" then titleGuess else href
  if body = "" ∨ body.length < 60 then none
  else match dt with
  | none => none
  | some d =>
    let d := if d.tz.isNone then utcLocalize d else d
    let localDt := astimezone d off
    if dateOf localDt ≠ dateOf (nowIn nowUTC off) then none
    else
      let publishedIso := isoformat localDt
      let finals := match rw with
        | .absent => (title, body)
        | .present out =>
          let rew := rewrite_with_gpt_expanded title body out jsonLoads
          (if rew.1 = "" then title else rew.1,
           if rew.2 = "" then body else rew.2)
      some { category := category
             title := finals.1
             link := href
             summary := finals.2
             image_url := image_url
             author := author
             published := publishedIso
             views := 0
             is_featured := 0
             featured_rank := none
             last_metrics_update := none
             trend_score := 0
             uuid_bytes := uuid }

/-- Outcome of one iteration of the kbizoom per-link loop: collect a
record, skip to the next link, or `break` out of the link loop. -/
inductive KbStepResult
  | collect (r : UpsertRec)
  | skip
  | stop
  deriving Repr, DecidableEq

/-- `scrapers/kbizoom_scraper.py::scrape_category_today`, per-link body
(lines 314-377): a fetch failure is caught and skips the link; a missing
publish date skips; an article not published today `break`s the link
loop; an empty extracted summary skips; otherwise the record is assembled
(naive publish dates are rendered after `TIMEZONE.localize`, aware ones
after `astimezone`), with the same rewriter fallback as kdramastars. -/
def kbizoomStep (category linkTitle linkUrl : String) (fetchOk : Bool)
    (dt : Option PyDateTime) (summary image author : String)
    (off nowUTC : Int) (out : GptOutcome)
    (jsonLoads : String → JsonParseResult) (uuid : Nat) : KbStepResult :=
  if ¬fetchOk then .skip
  else match dt with
  | none => .skip
  | some d =>
    if ¬is_published_today (some d) off nowUTC then .stop
    else if summary = "" then .skip
    else
      let pubIso := if d.tz.isSome then isoformat (astimezone d off)
                    else isoformat { clock := d.clock, tz := some off }
      let rew := rewrite_with_gpt_expanded linkTitle summary out jsonLoads
      let newTitle := if rew.1 = "" then linkTitle else rew.1
      let newSummary := if rew.2 = "" then summary else rew.2
      .collect { category := category
                 title := newTitle
                 link := linkUrl
                 summary := newSummary
                 image_url := image
                 author := author
                 published := pubIso
                 views := 0
                 is_featured := 0
                 featured_rank := none
                 last_metrics_update := none
                 trend_score := 0
                 uuid_bytes := uuid }

/-! ## Listing pagination

`kdramastars_scraper.py::scrape_category_with_debug` (lines 245-409) loops
`while current and pages_scraped < MAX_PAGES`, breaking on a navigation
failure and following the `rel=next` / "older posts" link; `run_all`
(lines 415-421) runs the loop once per category.
`scrapers/kbizoom_scraper.py::scrape_category_today` (lines 297-394) has
the same loop shape, but its `fetch` raises after its retries are
exhausted, and `main` (lines 398-412) catches that per category.  The
page-loading environment is an oracle from URL to an optional loaded page
(`none` = load failure); only the next-link of a loaded page matters
here. -/

/-- A loaded listing page, reduced to its next-page link (absent when
neither a `rel=next` anchor nor an "older posts" anchor is found). -/
structure ListingPage where
  nextLink : Option String
  deriving Repr, DecidableEq

/-- The kdramastars pagination loop, returning the listing URLs that were
fetched.  The `Nat` argument is `MAX_PAGES - pages_scraped`, which
strictly decreases every iteration (`pages_scraped += 1`); a load failure
`break`s. -/
def kdsPaginate (env : String → Option ListingPage) :
    Option String → Nat → List String
  | _, 0 => []
  | none, _ + 1 => []
  | some u, n + 1 =>
    match env u with
    | none => []
    | some pg => u :: kdsPaginate env pg.nextLink n

/-- `kdramastars_scraper.py::run_all`: every category of `CATEGORY_MAP` is
scraped in turn, each with its own pagination loop. -/
def kdsRunAll (env : String → Option ListingPage)
    (cats : List (String × String)) (maxPages : Nat) :
    List (String × List String) :=
  cats.map (fun c => (c.2, kdsPaginate env (some c.1) maxPages))

/-- The kbizoom pagination loop: as `kdsPaginate`, except that a fetch
failure raises out of `scrape_category_today` (after the internal
retries of `fetch`), losing the items collected for that category. -/
def kbizoomPaginate (env : String → Option ListingPage) :
    Option String → Nat → Except Unit (List String)
  | _, 0 => .ok []
  | none, _ + 1 => .ok []
  | some u, n + 1 =>
    match env u with
    | none => .error ()
    | some pg => (kbizoomPaginate env pg.nextLink n).map (u :: ·)

/-- `kbizoom_scraper.py::main`: each category runs inside
`try/except Exception`, so a raising category yields `none` and the loop
continues with the remaining categories. -/
def kbizoomMain (env : String → Option ListingPage)
    (cats : List (String × String)) (maxPages : Nat) :
    List (String × Option (List String)) :=
  cats.map (fun c =>
    (c.1, match kbizoomPaginate env (some c.2) maxPages with
          | .ok l => some l
          | .error _ => none))

/-! ## Translation batch job: `lecto_localize.py` -/

/-- The columns of an `articles` row that `lecto_localize.py` reads or
writes (`lang` is nullable; rows the scrapers insert leave it NULL until
set elsewhere, translated rows get the target language). -/
structure LcRow where
  id : Nat
  lang : Option String
  is_published : Int
  title : String
  summary : String
  link : String
  deriving Repr, DecidableEq

/-- `TARGET_LANGUAGES` of `lecto_localize.py`. -/
def TARGET_LANGUAGES : List String := ["ko", "ja", "es", "id", "vi"]

/-- `BATCH_SIZE` of `lecto_localize.py`. -/
def BATCH_SIZE : Nat := 2

/-- Python `lst[i:i+n]` chunking, i.e. `range(0, len(lst), n)` slicing
(fuel-recursive on the list length; `n = 0` is never used since
`BATCH_SIZE = 2`). -/
def pyChunksAux {α : Type} : Nat → List α → Nat → List (List α)
  | 0, _, _ => []
  | _ + 1, [], _ => []
  | fuel + 1, l, n => l.take n :: pyChunksAux fuel (l.drop n) n

/-- See `pyChunksAux`. -/
def pyChunks {α : Type} (l : List α) (n : Nat) : List (List α) :=
  if n = 0 then [] else pyChunksAux l.length l n

/-- One entry of the Lecto translation response, as the calling code reads
it: `tr.get("to")` and `tr.get("translated") or tr.get("texts") or []`. -/
structure TransEntry where
  toLang : Option String
  texts : List String
  deriving Repr, DecidableEq

/-- `lecto_localize.py::fetch_articles`: all rows with
`lang = en AND is_published = 0`. -/
def lcFetch (table : List LcRow) : List LcRow :=
  table.filter (fun r => r.lang == some "en" && r.is_published == 0)

/-- `lecto_localize.py::insert_translated_article`: the new row shares the
link of the original, carries the target language of the response and
`is_published = 0` (the fresh AUTO_INCREMENT id is not modelled). -/
def translatedRowOf (orig : LcRow) (lang : Option String) (t s : String) : LcRow :=
  { id := 0, lang := lang, is_published := 0, title := t, summary := s,
    link := orig.link }

/-- The translated rows the per-article loop of
`lecto_localize.py::process_articles` (lines 137-177) inserts for one
fetched article: empty-title articles are skipped, the target languages
are translated in batches of `BATCH_SIZE`, an empty response for a batch
is skipped, entries without translated texts are skipped, missing second
texts default to the original summary, and a failed INSERT
(`insOk = false`) inserts nothing. -/
def lcInsertsFor (tr : Nat → List String → List TransEntry)
    (insOk : Nat → Option String → Bool) (art : LcRow) : List LcRow :=
  if pyStrip art.title = "" then []
  else
    (pyChunks TARGET_LANGUAGES BATCH_SIZE).flatMap (fun batch =>
      (tr art.id batch).flatMap (fun e =>
        if e.texts = [] then []
        else
          let tTitle := e.texts.headD art.title
          let tSummary := if e.texts.length > 1 then e.texts.getD 1 art.summary
                          else art.summary
          if insOk art.id e.toLang then [translatedRowOf art e.toLang tTitle tSummary]
          else []))

/-- The row-level effect of the UPDATE in
`lecto_localize.py::mark_articles_as_published`: set `is_published = 1`
when the row matches `lang = en AND is_published = 0`. -/
def markRow (r : LcRow) : LcRow :=
  if r.lang == some "en" && r.is_published == 0 then { r with is_published := 1 }
  else r

/-- `lecto_localize.py::mark_articles_as_published` (lines 92-105):
`UPDATE articles SET is_published = 1 WHERE lang = en AND
is_published = 0`, applied to every matching row. -/
def markEnPublished (table : List LcRow) : List LcRow :=
  table.map markRow

/-- `lecto_localize.py::process_articles` (lines 129-182): fetch the
unpublished English rows; if none, return at once (no mark step);
otherwise run the translation/insert loop over the fetched snapshot and
finally call `mark_articles_as_published` (whose UPDATE may itself fail:
`markOk`). -/
def process_articles (table : List LcRow)
    (tr : Nat → List String → List TransEntry)
    (insOk : Nat → Option String → Bool) (markOk : Bool) : List LcRow :=
  let articles := lcFetch table
  if articles = [] then table
  else
    let table1 := table ++ articles.flatMap (lcInsertsFor tr insOk)
    if markOk then markEnPublished table1 else table1

/-! ## Instagram publishing and object-storage cleanup -/

/-- Outcome of `create_media_container` in `insta_post_test.py`: an HTTP
error response (`raise_for_status`, caught as `requests.HTTPError`), any
other exception (timeout, connection error, invalid JSON body — NOT
caught by `except requests.HTTPError`), or a parsed JSON body whose `id`
may be missing. -/
inductive CreateOutcome
  | createHttpErr
  | createOtherErr
  | createOk (creationId : Option String)
  deriving Repr, DecidableEq

/-- Outcome of `publish_media_container` in `insta_post_test.py`. -/
inductive PublishOutcome
  | pubHttpErr
  | pubOtherErr
  | pubOk
  deriving Repr, DecidableEq

/-- How `main` of `insta_post_test.py` ends: a normal `return`, or an
uncaught exception propagating out. -/
inductive RunExit
  | returned
  | crashed
  deriving Repr, DecidableEq

/-- Observable end state of the publish phase: how the run ended, the keys
left in the bucket, and whether the post went through. -/
structure IgPublishResult where
  exit : RunExit
  storage : List String
  published : Bool
  deriving Repr, DecidableEq

/-- `insta_post_test.py::cleanup_uploaded_keys` (lines 487-496): delete
each uploaded key (per-key delete failures are caught and logged; deletes
are modelled as succeeding). -/
def cleanup_uploaded_keys (storage keys : List String) : List String :=
  storage.filter (fun k => ¬ keys.contains k)

/-- `insta_post_test.py::main`, steps 8-9 (lines 597-621), starting from a
bucket state `storage` and the accumulated `uploaded_keys`: an
`HTTPError` from container creation or publish, and a missing creation
id, run `cleanup_uploaded_keys` and return; any other exception
propagates out of `main` with no cleanup; on success the same cleanup
runs (the uploads are temporary staging objects). -/
def instaTestPublishPhase (storage uploadedKeys : List String)
    (c : CreateOutcome) (p : PublishOutcome) : IgPublishResult :=
  match c with
  | .createHttpErr =>
    { exit := .returned, storage := cleanup_uploaded_keys storage uploadedKeys,
      published := false }
  | .createOtherErr =>
    { exit := .crashed, storage := storage, published := false }
  | .createOk none =>
    { exit := .returned, storage := cleanup_uploaded_keys storage uploadedKeys,
      published := false }
  | .createOk (some _) =>
    match p with
    | .pubHttpErr =>
      { exit := .returned, storage := cleanup_uploaded_keys storage uploadedKeys,
        published := false }
    | .pubOtherErr =>
      { exit := .crashed, storage := storage, published := false }
    | .pubOk =>
      { exit := .returned, storage := cleanup_uploaded_keys storage uploadedKeys,
        published := true }

/-- Where the per-article body of `insta_post.py::process_and_publish`
(lines 287-333) stops: before any upload, between the two uploads, or
after both uploads with the outcomes of the publish calls (each publish attempt
is wrapped in its own `except Exception`, which only prints). -/
inductive PPOutcome
  | beforeUploads
  | videoUploadFail
  | uploadsDone (imgPublishOk vidPublishOk : Bool)
  deriving Repr, DecidableEq

/-- Bucket contents after one article of
`insta_post.py::process_and_publish`: the edited image and the reel video
are uploaded to R2 under `image_key`/`video_key`; no path of the function
ever deletes an uploaded object, whatever the publish calls do. -/
def instaProcessArticle (storage : List String) (imageKey videoKey : String)
    (o : PPOutcome) : List String :=
  match o with
  | .beforeUploads => storage
  | .videoUploadFail => storage ++ [imageKey]
  | .uploadsDone _ _ => storage ++ [imageKey, videoKey]

/-! ## JSON snapshot merge and corrupted-file backup

`scrapers/kareboo_scraper.py` (lines 427-462) and
`scrapers/knews_scraper.py` (lines 516-551) end the run identically: load
the existing `OUTPUT_JSON`; on a `json.JSONDecodeError` rename it to
`f"{OUTPUT_JSON}.broken.{ts}"`; build a dict keyed by `link` from the
(list-shaped) existing records and then from the records of this run; write
the dict values back. -/

/-- One element of the previously written JSON list, as the merge code
inspects it: a dict with its `e.get("link")` (empty string models a
missing or falsy link, which the code drops), or a non-dict element. -/
inductive PyJsonEntry
  | dictE (link : String) (payload : Nat)
  | otherE
  deriving Repr, DecidableEq

/-- State of the existing snapshot file: absent, present but not JSON
(`json.JSONDecodeError`), a parsed JSON list, or parsed JSON of another
shape (not a list — merged as if empty, no backup). -/
inductive ExistingFile
  | absent
  | malformed
  | parsedList (entries : List PyJsonEntry)
  | parsedOther
  deriving Repr, DecidableEq

/-- Python `merged[k] = v` on an insertion-ordered dict modelled as an
association list: replace in place, or append a new key. -/
def dictInsert (m : List (String × Nat)) (k : String) (v : Nat) :
    List (String × Nat) :=
  if m.any (fun p => p.1 == k) then
    m.map (fun p => if p.1 == k then (k, v) else p)
  else m ++ [(k, v)]

/-- The filesystem operations of the merge epilogue, in order. -/
inductive FileOp
  | backupBroken (name : String)
  | writeSnapshot (contents : List (String × Nat))
  deriving Repr, DecidableEq

/-- One prior-file entry folded into the dict (the body of the first merge
loop of the epilogue): a dict with a truthy `link` is keyed under it,
anything else is dropped. -/
def entryInsert (m : List (String × Nat)) (e : PyJsonEntry) :
    List (String × Nat) :=
  match e with
  | .dictE link payload => if link ≠ "" then dictInsert m link payload else m
  | .otherE => m

/-- The merged dict the epilogue builds: the list-shaped prior records
keyed by their (truthy) links, then the records of this run overriding them. -/
def mergedSnapshot (existing : ExistingFile) (current : List (String × Nat)) :
    List (String × Nat) :=
  let entries : List PyJsonEntry :=
    match existing with
    | .parsedList es => es
    | _ => []
  let merged0 := entries.foldl entryInsert []
  current.foldl (fun m r => dictInsert m r.1 r.2) merged0

/-- The merge epilogue of `kareboo_scraper.py` / `knews_scraper.py`:
returns the ordered file operations performed on `output` given the
state of the existing file, the records `current` of this run (each with its link),
and the backup timestamp string `ts`. -/
def jsonMergeOps (output : String) (existing : ExistingFile)
    (current : List (String × Nat)) (ts : String) : List FileOp :=
  let backupOps : List FileOp :=
    match existing with
    | .malformed => [.backupBroken (output ++ ".broken." ++ ts)]
    | _ => []
  backupOps ++ [.writeSnapshot (mergedSnapshot existing current)]

/-- Lookup in the insertion-ordered dict model. -/
def assocFind (m : List (String × Nat)) (k : String) : Option Nat :=
  (m.find? (fun p => p.1 == k)).map Prod.snd

/-- The value of the last record in `current` carrying link `k` (the one
that wins the merge). -/
def lastAssoc (current : List (String × Nat)) (k : String) : Option Nat :=
  (current.reverse.find? (fun p => p.1 == k)).map Prod.snd

/-- A sample record for concrete witnesses (link `"L"`). -/
def sampleRec : UpsertRec :=
  { category := "kdrama", title := "t1", link := "L", summary := "s1",
    image_url := "", author := "", published := "p1", views := 0,
    is_featured := 0, featured_rank := none, last_metrics_update := none,
    trend_score := 0, uuid_bytes := 1 }

/-- A second sample record for the same link with different mutable
fields. -/
def sampleRec2 : UpsertRec :=
  { sampleRec with
    title := "t2"
    summary := "s2"
    published := "p2"
    uuid_bytes := 2 }

/-! ## Theorems for the documented properties -/

/-- C6: the persistence upsert returns True exactly when the
insert-or-update statement commits; on any database error it returns
False, the transaction is rolled back so the table is unchanged by the
call, and whenever a pooled connection was acquired it is closed, on
success and failure alike. -/
theorem db_upsert_outcome_contract (o : DbOutcome) (t : List ArticleRow)
    (r : UpsertRec) (now : Int) :
    ((db_upsert o t r now).ret = true ↔ o = DbOutcome.ok)
    ∧ ((db_upsert o t r now).ret = false → (db_upsert o t r now).table = t)
    ∧ (o = DbOutcome.ok → (db_upsert o t r now).table = upsertApply t r now)
    ∧ ((db_upsert o t r now).acquired = true → (db_upsert o t r now).closed = true) := by
  cases o <;> simp [db_upsert]

/-- Witness for C6 at a concrete failing call: an execute failure leaves
the table unchanged. -/
theorem db_upsert_outcome_contract_witness :
    (db_upsert DbOutcome.execFail [] sampleRec 3).table = [] :=
  (db_upsert_outcome_contract DbOutcome.execFail [] sampleRec 3).2.1 rfl

/-- C10: a naive extracted timestamp is localized to UTC before the
freshness comparison — the decision always equals the one for the same
wall-clock reading carrying an explicit UTC offset — and it is not
interpreted as local time in the configured timezone: at wall-clock 1400
with offset +330 and now 200 the code excludes the article (its UTC
reading falls on the next local day) while the interpret-as-local reading
would accept it. -/
theorem naive_dates_read_as_utc :
    (∀ w off nowUTC : Int,
      is_published_today (some ⟨w, none⟩) off nowUTC
        = is_published_today (some ⟨w, some 0⟩) off nowUTC)
    ∧ is_published_today (some ⟨1400, none⟩) 330 200 = false
    ∧ naiveAsLocalDecision ⟨1400, none⟩ 330 200 = true :=
  ⟨fun _ _ _ => rfl, by decide, by decide⟩

/-- C2 counterexample: when the external call returns output that cannot
be parsed as JSON (no braces anywhere), the returned dict is NOT the
original (title, body) pair — the first line of the raw response becomes
the header. -/
theorem rewrite_unparsable_output_not_passthrough :
    rewrite_with_gpt_expanded "Original Title" "Original Body"
        (GptOutcome.gptOk "Sorry, I cannot produce JSON.") (fun _ => .decodeErr)
      ≠ ("Original Title", "Original Body") := by
  decide

/-- C2 amended: if the external rewrite call raises, the returned dict is
exactly the original (title, body); if it returns unparsable output the
rewriter instead falls back to a line-split of the raw response, which
equals the originals only in degenerate cases such as a whitespace-only
response. -/
theorem rewrite_fallback_contract :
    (∀ (title summary : String) (j : String → JsonParseResult),
      rewrite_with_gpt_expanded title summary GptOutcome.gptRaise j
        = (title, summary))
    ∧ (∀ (title summary content : String) (j : String → JsonParseResult),
      pyStrip content = "" →
      rewrite_with_gpt_expanded title summary (GptOutcome.gptOk content) j
        = (title, summary)) := by
  constructor
  · intro title summary j
    rfl
  · intro title summary content j h
    simp only [rewrite_with_gpt_expanded]
    rw [h]
    rfl

/-- Witness for C2 (amended) at a concrete whitespace-only response. -/
theorem rewrite_fallback_contract_witness :
    rewrite_with_gpt_expanded "a" "b" (GptOutcome.gptOk "  ")
        (fun _ => .decodeErr) = ("a", "b") :=
  rewrite_fallback_contract.2 "a" "b" "  " (fun _ => .decodeErr) rfl

/-- C7: a candidate whose extracted body text is empty or shorter than the
60-character threshold is never persisted by the kdramastars scraper (the
step yields no record, so `db_upsert` is not reached and processing
continues with the next candidate); likewise the kbizoom scraper never
collects a record when the extracted summary is empty. -/
theorem short_body_never_persisted :
    (∀ (category tfp tg href body iu au : String) (dt : Option PyDateTime)
       (off nowUTC : Int) (rw : RewriterCfg) (j : String → JsonParseResult)
       (uuid : Nat),
       body.length < 60 →
       kdsStep category tfp tg href body iu au dt off nowUTC rw j uuid = none)
    ∧ (∀ (category lt lu : String) (fo : Bool) (dt : Option PyDateTime)
       (image author : String) (off nowUTC : Int) (out : GptOutcome)
       (j : String → JsonParseResult) (uuid : Nat),
       kbizoomStep category lt lu fo dt "" image author off nowUTC out j uuid
           = KbStepResult.skip
       ∨ kbizoomStep category lt lu fo dt "" image author off nowUTC out j uuid
           = KbStepResult.stop) := by
  constructor
  · intro category tfp tg href body iu au dt off nowUTC rw j uuid h
    have hb : body = "" ∨ body.length < 60 := Or.inr h
    simp [kdsStep, hb]
  · intro category lt lu fo dt image author off nowUTC out j uuid
    cases fo with
    | false => left; rfl
    | true =>
      cases dt with
      | none => left; rfl
      | some d =>
        by_cases hp : is_published_today (some d) off nowUTC
        · left; simp [kbizoomStep, hp]
        · right; simp [kbizoomStep, hp]

/-- Witness for C7 at a concrete short body. -/
theorem short_body_never_persisted_witness :
    kdsStep "kdrama" "T" "" "http://x" "too short" "" "" none 330 0
        RewriterCfg.absent (fun _ => .decodeErr) 0 = none :=
  short_body_never_persisted.1 "kdrama" "T" "" "http://x" "too short" "" ""
    none 330 0 RewriterCfg.absent (fun _ => .decodeErr) 0 (by decide)

/-- C4 counterexample: in `insta_post.py::process_and_publish`, after both
uploads succeed and both social-platform publish calls fail, the uploaded
objects are still in the bucket when the article is done — nothing is
deleted. -/
theorem insta_publish_failure_leaves_uploads :
    instaProcessArticle [] "generated/feeds/img.jpg" "generated/reels/vid.mp4"
        (PPOutcome.uploadsDone false false)
      = ["generated/feeds/img.jpg", "generated/reels/vid.mp4"]
    ∧ instaProcessArticle [] "generated/feeds/img.jpg" "generated/reels/vid.mp4"
        (PPOutcome.uploadsDone false false) ≠ [] := by
  exact ⟨rfl, by decide⟩

/-- C4 amended: in `insta_post_test.py::main` every path on which the
function returns — container creation or publish failing with an HTTP
error response, a missing creation id, or success — deletes every
uploaded key from the bucket; exceptions of other types propagate without
cleanup, and `insta_post.py::process_and_publish` never deletes uploaded
objects at all. -/
theorem insta_test_cleanup_on_returned_exit (storage keys : List String)
    (c : CreateOutcome) (p : PublishOutcome)
    (h : (instaTestPublishPhase storage keys c p).exit = RunExit.returned) :
    ∀ k ∈ keys, k ∉ (instaTestPublishPhase storage keys c p).storage := by
  intro k hk
  have hclean : ∀ st : List String, k ∉ cleanup_uploaded_keys st keys := by
    intro st hmem
    rw [cleanup_uploaded_keys, List.mem_filter] at hmem
    have := hmem.2
    simp only [decide_eq_true_eq] at this
    exact this (List.elem_iff.mpr hk)
  cases c with
  | createHttpErr => exact hclean storage
  | createOtherErr => simp [instaTestPublishPhase] at h
  | createOk cid =>
    cases cid with
    | none => exact hclean storage
    | some i =>
      cases p with
      | pubHttpErr => exact hclean storage
      | pubOtherErr => simp [instaTestPublishPhase] at h
      | pubOk => exact hclean storage

/-- Witness for C4 (amended) at a concrete HTTP-error publish failure. -/
theorem insta_test_cleanup_on_returned_exit_witness :
    "k" ∉ (instaTestPublishPhase ["a", "k"] ["k"] CreateOutcome.createHttpErr
        PublishOutcome.pubOk).storage :=
  insta_test_cleanup_on_returned_exit ["a", "k"] ["k"]
    CreateOutcome.createHttpErr PublishOutcome.pubOk rfl "k" (by decide)

/-- The kdramastars pagination loop fetches at most as many pages as it
has fuel (its totality is the termination of the loop: the remaining-page
budget strictly decreases every iteration). -/
theorem kdsPaginate_length_le (env : String → Option ListingPage) :
    ∀ (n : Nat) (cur : Option String), (kdsPaginate env cur n).length ≤ n := by
  intro n
  induction n with
  | zero =>
    intro cur
    cases cur <;> simp [kdsPaginate]
  | succ n ih =>
    intro cur
    cases cur with
    | none => simp [kdsPaginate]
    | some u =>
      cases h : env u with
      | none => simp [kdsPaginate, h]
      | some pg =>
        simp only [kdsPaginate, h, List.length_cons]
        exact Nat.succ_le_succ (ih _)

/-- The kbizoom pagination loop fetches at most `max_pages` pages when it
completes without raising. -/
theorem kbizoomPaginate_length_le (env : String → Option ListingPage) :
    ∀ (n : Nat) (cur : Option String) (l : List String),
      kbizoomPaginate env cur n = .ok l → l.length ≤ n := by
  intro n
  induction n with
  | zero =>
    intro cur l h
    cases cur <;> simp [kbizoomPaginate] at h <;> simp [h]
  | succ n ih =>
    intro cur l h
    cases cur with
    | none =>
      simp [kbizoomPaginate] at h
      simp [h]
    | some u =>
      cases hu : env u with
      | none => simp [kbizoomPaginate, hu] at h
      | some pg =>
        simp only [kbizoomPaginate, hu] at h
        cases hrec : kbizoomPaginate env pg.nextLink n with
        | error e => rw [hrec] at h; simp [Except.map] at h
        | ok l' =>
          rw [hrec] at h
          simp [Except.map] at h
          rw [← h]
          exact Nat.succ_le_succ (ih _ _ hrec)

/-- C8: the listing-pagination loop fetches at most `MAX_PAGES` listing
pages and terminates (the loop functions are total, consuming the
strictly-decreasing page budget); it stops at once on a page-load failure
and when a loaded page has no next link; and one category failing to load
never aborts the rest of the run — every configured category is still
processed, both in the kdramastars `run_all` and in the kbizoom `main`
(where a mid-pagination fetch failure raises and is caught per
category). -/
theorem pagination_bounded_and_isolated :
    (∀ (env : String → Option ListingPage) (cur : Option String) (maxPages : Nat),
      (kdsPaginate env cur maxPages).length ≤ maxPages)
    ∧ (∀ (env : String → Option ListingPage) (u : String) (n : Nat),
      env u = none → kdsPaginate env (some u) (n + 1) = [])
    ∧ (∀ (env : String → Option ListingPage) (u : String) (n : Nat)
        (pg : ListingPage), env u = some pg → pg.nextLink = none →
      kdsPaginate env (some u) (n + 1) = [u])
    ∧ (∀ (env : String → Option ListingPage) (cats : List (String × String))
        (maxPages : Nat),
      (kdsRunAll env cats maxPages).map Prod.fst = cats.map Prod.snd)
    ∧ (∀ (env : String → Option ListingPage) (cats : List (String × String))
        (maxPages : Nat) (c : String × String), c ∈ cats →
      (c.2, kdsPaginate env (some c.1) maxPages) ∈ kdsRunAll env cats maxPages)
    ∧ (∀ (env : String → Option ListingPage) (cur : Option String) (n : Nat)
        (l : List String), kbizoomPaginate env cur n = .ok l → l.length ≤ n)
    ∧ (∀ (env : String → Option ListingPage) (cats : List (String × String))
        (maxPages : Nat),
      (kbizoomMain env cats maxPages).map Prod.fst = cats.map Prod.fst) := by
  refine ⟨fun env cur n => kdsPaginate_length_le env n cur, ?_, ?_, ?_, ?_,
    fun env cur n l h => kbizoomPaginate_length_le env n cur l h, ?_⟩
  · intro env u n h
    simp [kdsPaginate, h]
  · intro env u n pg h hn
    cases n <;> simp [kdsPaginate, h, hn]
  · intro env cats maxPages
    simp [kdsRunAll]
  · intro env cats maxPages c hc
    exact List.mem_map_of_mem _ hc
  · intro env cats maxPages
    simp [kbizoomMain]

/-- Witness for C8 at concrete environments: an immediate load failure
ends the category with no pages, a page without a next link yields exactly
that one page, and a successful two-page bound holds. -/
theorem pagination_bounded_and_isolated_witness :
    kdsPaginate (fun _ => none) (some "u") 3 = []
    ∧ kdsPaginate (fun _ => some ⟨none⟩) (some "u") 5 = ["u"]
    ∧ (kdsPaginate (fun _ => some ⟨some "v"⟩) (some "u") 2).length ≤ 2 :=
  ⟨pagination_bounded_and_isolated.2.1 (fun _ => none) "u" 2 rfl,
   pagination_bounded_and_isolated.2.2.1 (fun _ => some ⟨none⟩) "u" 4 ⟨none⟩ rfl rfl,
   pagination_bounded_and_isolated.1 (fun _ => some ⟨some "v"⟩) (some "u") 2⟩

/-- `find?` over an append scans the left list first. -/
theorem find?_append_cases {α : Type} (l1 l2 : List α) (p : α → Bool) :
    (l1 ++ l2).find? p = match l1.find? p with
      | some x => some x
      | none => l2.find? p := by
  induction l1 with
  | nil => rfl
  | cons a l1 ih =>
    by_cases ha : p a
    · simp [List.find?_cons_of_pos _ ha]
    · simp only [List.cons_append, List.find?_cons_of_neg _ ha, ih]

/-- Replacing the value stored at a key leaves the key list unchanged. -/
theorem map_fst_replace (m : List (String × Nat)) (k : String) (v : Nat) :
    (m.map (fun p => if p.1 == k then (k, v) else p)).map Prod.fst
      = m.map Prod.fst := by
  induction m with
  | nil => rfl
  | cons a rest ih =>
    simp only [List.map_cons]
    by_cases ha : (a.1 == k) = true
    · rw [if_pos ha]
      simp only [List.map_cons, ih]
      congr 1
      exact (eq_of_beq ha).symm
    · rw [if_neg ha]
      simp only [List.map_cons, ih]

/-- The keys of a Python dict after `merged[k] = v`: unchanged when `k`
was present (the value is replaced in place), else extended by `k`. -/
theorem dictInsert_fst (m : List (String × Nat)) (k : String) (v : Nat) :
    (dictInsert m k v).map Prod.fst
      = if m.any (fun p => p.1 == k) then m.map Prod.fst
        else m.map Prod.fst ++ [k] := by
  unfold dictInsert
  by_cases h : (m.any fun p => p.1 == k) = true
  · rw [if_pos h, if_pos h, map_fst_replace]
  · rw [if_neg h, if_neg h, List.map_append]
    rfl

/-- `merged[k] = v` keeps the keys duplicate-free. -/
theorem dictInsert_nodup_keys (m : List (String × Nat)) (k : String) (v : Nat)
    (h : (m.map Prod.fst).Nodup) :
    ((dictInsert m k v).map Prod.fst).Nodup := by
  rw [dictInsert_fst]
  by_cases hc : (m.any fun p => p.1 == k) = true
  · rw [if_pos hc]; exact h
  · rw [if_neg hc]
    have hk : k ∉ m.map Prod.fst := by
      intro hmem
      apply hc
      rcases List.mem_map.mp hmem with ⟨q, hq, hqk⟩
      exact List.any_eq_true.mpr ⟨q, hq, by rw [hqk]; exact beq_self_eq_true k⟩
    rw [List.nodup_append]
    exact ⟨h, List.nodup_singleton k, fun a ha hb => by
      simp only [List.mem_singleton] at hb
      exact hk (hb ▸ ha)⟩

/-- Folding the records of this run into the dict keeps the keys
duplicate-free. -/
theorem foldl_dictInsert_nodup (l : List (String × Nat)) :
    ∀ m : List (String × Nat), (m.map Prod.fst).Nodup →
      ((l.foldl (fun m r => dictInsert m r.1 r.2) m).map Prod.fst).Nodup := by
  induction l with
  | nil => exact fun m h => h
  | cons c rest ih =>
    intro m h
    exact ih _ (dictInsert_nodup_keys m c.1 c.2 h)

/-- `entryInsert` keeps the keys duplicate-free. -/
theorem entryInsert_nodup (m : List (String × Nat)) (e : PyJsonEntry)
    (h : (m.map Prod.fst).Nodup) :
    ((entryInsert m e).map Prod.fst).Nodup := by
  cases e with
  | dictE link payload =>
    show ((if link ≠ "" then dictInsert m link payload else m).map Prod.fst).Nodup
    by_cases hl : link ≠ ""
    · rw [if_pos hl]; exact dictInsert_nodup_keys m link payload h
    · rw [if_neg hl]; exact h
  | otherE => exact h

/-- Folding the prior-file entries into the dict keeps the keys
duplicate-free. -/
theorem foldl_entryInsert_nodup (es : List PyJsonEntry) :
    ∀ m : List (String × Nat), (m.map Prod.fst).Nodup →
      ((es.foldl entryInsert m).map Prod.fst).Nodup := by
  induction es with
  | nil => exact fun m h => h
  | cons e rest ih =>
    intro m h
    exact ih _ (entryInsert_nodup m e h)

/-- After an in-place replacement the dict maps `k` to `v`. -/
theorem find_replace_self (m : List (String × Nat)) (k : String) (v : Nat)
    (h : (m.any fun p => p.1 == k) = true) :
    (m.map (fun p => if p.1 == k then (k, v) else p)).find?
        (fun p => p.1 == k) = some (k, v) := by
  induction m with
  | nil => simp at h
  | cons a rest ih =>
    simp only [List.map_cons]
    by_cases ha : (a.1 == k) = true
    · rw [if_pos ha]
      exact List.find?_cons_of_pos (p := fun q : String × Nat => q.1 == k) _ (beq_self_eq_true k)
    · rw [if_neg ha, List.find?_cons_of_neg (p := fun q : String × Nat => q.1 == k) _ ha]
      exact ih (by simpa [ha] using h)

/-- After `merged[k] = v` the dict maps `k` to `v`. -/
theorem dictInsert_find_self (m : List (String × Nat)) (k : String) (v : Nat) :
    (dictInsert m k v).find? (fun p => p.1 == k) = some (k, v) := by
  unfold dictInsert
  by_cases h : (m.any fun p => p.1 == k) = true
  · rw [if_pos h]
    exact find_replace_self m k v h
  · rw [if_neg h, find?_append_cases]
    have hm : m.find? (fun p => p.1 == k) = none := by
      rw [List.find?_eq_none]
      intro x hx hpx
      exact h (List.any_eq_true.mpr ⟨x, hx, hpx⟩)
    rw [hm]
    exact List.find?_cons_of_pos (p := fun q : String × Nat => q.1 == k) _ (beq_self_eq_true k)

/-- An in-place replacement at `k` does not change other keys. -/
theorem find_replace_other (m : List (String × Nat)) (k : String) (v : Nat)
    (kk : String) (hkk : (k == kk) = false) :
    (m.map (fun p => if p.1 == k then (k, v) else p)).find?
        (fun p => p.1 == kk)
      = m.find? (fun p => p.1 == kk) := by
  induction m with
  | nil => rfl
  | cons a rest ih =>
    simp only [List.map_cons]
    by_cases ha : (a.1 == k) = true
    · have h2 : ¬((a.1 == kk) = true) := by
        rw [eq_of_beq ha, hkk]
        exact Bool.false_ne_true
      rw [if_pos ha, List.find?_cons_of_neg (p := fun q : String × Nat => q.1 == kk) _ (by
          show ¬(((k, v).1 == kk) = true)
          rw [hkk]
          exact Bool.false_ne_true),
        List.find?_cons_of_neg (p := fun q : String × Nat => q.1 == kk) _ h2, ih]
    · rw [if_neg ha]
      by_cases ha2 : (a.1 == kk) = true
      · rw [List.find?_cons_of_pos (p := fun q : String × Nat => q.1 == kk) _ ha2,
          List.find?_cons_of_pos (p := fun q : String × Nat => q.1 == kk) _ ha2]
      · rw [List.find?_cons_of_neg (p := fun q : String × Nat => q.1 == kk) _ ha2,
          List.find?_cons_of_neg (p := fun q : String × Nat => q.1 == kk) _ ha2, ih]

/-- `merged[k] = v` does not change the value of other keys. -/
theorem dictInsert_find_other (m : List (String × Nat)) (k : String) (v : Nat)
    (kk : String) (hkk : (k == kk) = false) :
    (dictInsert m k v).find? (fun p => p.1 == kk)
      = m.find? (fun p => p.1 == kk) := by
  unfold dictInsert
  by_cases h : (m.any fun p => p.1 == k) = true
  · rw [if_pos h]
    exact find_replace_other m k v kk hkk
  · rw [if_neg h, find?_append_cases]
    cases hm : m.find? (fun p => p.1 == kk) with
    | some x => rfl
    | none =>
      show List.find? (fun q => q.1 == kk) [(k, v)] = none
      rw [List.find?_cons_of_neg (p := fun q : String × Nat => q.1 == kk) _ (by
          show ¬(((k, v).1 == kk) = true)
          rw [hkk]
          exact Bool.false_ne_true)]
      rfl

/-- The one-step description of `lastAssoc` used in the fold proof. -/
theorem lastAssoc_cons (c : String × Nat) (rest : List (String × Nat))
    (k : String) :
    lastAssoc (c :: rest) k
      = match lastAssoc rest k with
        | some v => some v
        | none => if c.1 == k then some c.2 else none := by
  unfold lastAssoc
  rw [List.reverse_cons, find?_append_cases]
  cases hr : rest.reverse.find? (fun p => p.1 == k) with
  | some x => rfl
  | none =>
    by_cases hck : (c.1 == k) = true
    · rw [List.find?_cons_of_pos (p := fun q : String × Nat => q.1 == k) _ hck, if_pos hck]
      rfl
    · rw [List.find?_cons_of_neg (p := fun q : String × Nat => q.1 == k) _ hck, if_neg hck]
      rfl

/-- Folding the records of this run over any dict makes the last record
with a given link win that key. -/
theorem assocFind_foldl (l : List (String × Nat)) :
    ∀ (m : List (String × Nat)) (k : String),
      assocFind (l.foldl (fun m r => dictInsert m r.1 r.2) m) k
        = match lastAssoc l k with
          | some v => some v
          | none => assocFind m k := by
  induction l with
  | nil => intro m k; rfl
  | cons c rest ih =>
    intro m k
    rw [List.foldl_cons, ih, lastAssoc_cons]
    cases hr : lastAssoc rest k with
    | some v => rfl
    | none =>
      by_cases hck : (c.1 == k) = true
      · rw [if_pos hck]
        have e : c.1 = k := eq_of_beq hck
        subst e
        unfold assocFind
        rw [dictInsert_find_self]
        rfl
      · rw [if_neg hck]
        unfold assocFind
        rw [dictInsert_find_other m c.1 c.2 k (by
          cases hb : (c.1 == k) with
          | false => rfl
          | true => exact absurd hb hck)]

/-- C9: when the prior snapshot file exists but cannot be parsed as JSON,
the run renames it to `<output>.broken.<timestamp>` and only then writes
the new merged snapshot (the corrupted content is never silently
overwritten); the merged snapshot holds at most one record per link, and
for every link this run produced, the record of this run (its last
occurrence) takes precedence over any prior record. -/
theorem json_snapshot_backup_and_merge :
    (∀ (output : String) (current : List (String × Nat)) (ts : String),
      jsonMergeOps output ExistingFile.malformed current ts
        = [FileOp.backupBroken (output ++ ".broken." ++ ts),
           FileOp.writeSnapshot (mergedSnapshot ExistingFile.malformed current)])
    ∧ (∀ (existing : ExistingFile) (current : List (String × Nat)),
      ((mergedSnapshot existing current).map Prod.fst).Nodup)
    ∧ (∀ (existing : ExistingFile) (current : List (String × Nat))
        (k : String) (v : Nat), lastAssoc current k = some v →
      assocFind (mergedSnapshot existing current) k = some v) := by
  refine ⟨fun output current ts => rfl, ?_, ?_⟩
  · intro existing current
    exact foldl_dictInsert_nodup current _ (foldl_entryInsert_nodup _ []
      List.nodup_nil)
  · intro existing current k v h
    unfold mergedSnapshot
    rw [assocFind_foldl, h]

/-- Witness for C9: the last record of the run for link `l1` wins over
both the prior file record and an earlier record of the same run. -/
theorem json_snapshot_backup_and_merge_witness :
    assocFind (mergedSnapshot (ExistingFile.parsedList [PyJsonEntry.dictE "l1" 9])
        [("l1", 1), ("l1", 3)]) "l1" = some 3 :=
  json_snapshot_backup_and_merge.2.2
    (ExistingFile.parsedList [PyJsonEntry.dictE "l1" 9]) [("l1", 1), ("l1", 3)]
    "l1" 3 (by decide)

/-- C5 counterexample: for a table holding a single unpublished English
article with an empty title, the batch job generates no translated row at
all (the article is skipped before any translation request), yet its
final UPDATE still flips the article to `is_published = 1` — the row is
marked published although no target-language variant exists. -/
theorem lc_published_without_translations :
    process_articles [⟨1, some "en", 0, "", "", "lnk"⟩]
        (fun _ _ => []) (fun _ _ => true) true
      = [⟨1, some "en", 1, "", "", "lnk"⟩]
    ∧ ((process_articles [⟨1, some "en", 0, "", "", "lnk"⟩]
        (fun _ _ => []) (fun _ _ => true) true).filter
          (fun r => decide (r.lang ≠ some "en"))) = [] := by
  decide

/-- C5 amended: the final update of the translation batch job flips
exactly the English-language rows that were unpublished, but it does so
unconditionally once any unpublished English row was fetched — whether or
not target-language variants were generated for them (empty-title rows
and failed translations are simply skipped beforehand). -/
theorem lc_mark_flips_unpublished_english_unconditionally
    (table : List LcRow) (tr : Nat → List String → List TransEntry)
    (insOk : Nat → Option String → Bool)
    (h : lcFetch table ≠ []) :
    process_articles table tr insOk true
      = table.map markRow
        ++ ((lcFetch table).flatMap (lcInsertsFor tr insOk)).map markRow
    ∧ (∀ r : LcRow, r.lang = some "en" → r.is_published = 0 →
        markRow r = { r with is_published := 1 })
    ∧ (∀ r : LcRow, ¬(r.lang = some "en" ∧ r.is_published = 0) →
        markRow r = r) := by
  refine ⟨?_, ?_, ?_⟩
  · unfold process_articles
    rw [if_neg h]
    show markEnPublished _ = _
    unfold markEnPublished
    rw [List.map_append]
  · intro r h1 h2
    unfold markRow
    rw [if_pos (by simp [h1, h2])]
  · intro r hr
    unfold markRow
    rw [if_neg (by
      simp only [Bool.and_eq_true, beq_iff_eq]
      intro hc
      exact hr hc)]

/-- Witness for C5 (amended) at a concrete one-row table whose
translations all fail. -/
theorem lc_mark_flips_unpublished_english_witness :
    process_articles [⟨1, some "en", 0, "T", "S", "l"⟩]
        (fun _ _ => []) (fun _ _ => false) true
      = ([⟨1, some "en", 0, "T", "S", "l"⟩] : List LcRow).map markRow
        ++ ((lcFetch [⟨1, some "en", 0, "T", "S", "l"⟩]).flatMap
              (lcInsertsFor (fun _ _ => []) (fun _ _ => false))).map markRow :=
  (lc_mark_flips_unpublished_english_unconditionally
    [⟨1, some "en", 0, "T", "S", "l"⟩] (fun _ _ => []) (fun _ _ => false)
    (by decide)).1

/-- Composing two ON DUPLICATE KEY updates keeps only the later mutable
fields (the update overwrites every mutable column). -/
theorem updateRowOf_comp (row : ArticleRow) (r1 r2 : UpsertRec) (n1 n2 : Int) :
    updateRowOf (updateRowOf row r1 n1) r2 n2 = updateRowOf row r2 n2 := rfl

/-- The update branch never changes the `link` column. -/
theorem updateRowOf_link (row : ArticleRow) (r : UpsertRec) (n : Int) :
    (updateRowOf row r n).link = row.link := rfl

/-- The conflict test of the upsert in terms of `linkRows`. -/
theorem linkRows_eq_nil_iff (t : List ArticleRow) (l : String) :
    linkRows t l = [] ↔ (t.any fun row => row.link == some l) = false := by
  unfold linkRows
  constructor
  · intro h
    rw [List.any_eq_false]
    intro x hx hpx
    have : x ∈ t.filter (fun row => row.link == some l) :=
      List.mem_filter.mpr ⟨hx, hpx⟩
    rw [h] at this
    exact absurd this (List.not_mem_nil x)
  · intro h
    rw [List.filter_eq_nil_iff]
    intro a ha
    exact (List.any_eq_false.mp h) a ha

/-- With no conflicting row present, the upsert statement appends a fresh
row built from the record. -/
theorem upsertApply_absent (t : List ArticleRow) (r : UpsertRec) (now : Int)
    (hne : r.link ≠ "") (h : linkRows t (pyTake r.link 1000) = []) :
    upsertApply t r now = t ++ [insertRowOf r now] := by
  have e : optTrunc r.link 1000 = some (pyTake r.link 1000) := by
    unfold optTrunc
    rw [if_neg hne]
  simp only [upsertApply, e]
  rw [if_neg (by rw [(linkRows_eq_nil_iff t (pyTake r.link 1000)).mp h]; exact
    Bool.false_ne_true)]

/-- With a conflicting row present, the upsert statement updates the
conflicting row in place and adds nothing. -/
theorem upsertApply_present (t : List ArticleRow) (r : UpsertRec) (now : Int)
    (hne : r.link ≠ "") (h : linkRows t (pyTake r.link 1000) ≠ []) :
    upsertApply t r now
      = t.map (fun x => if x.link == some (pyTake r.link 1000)
          then updateRowOf x r now else x) := by
  have e : optTrunc r.link 1000 = some (pyTake r.link 1000) := by
    unfold optTrunc
    rw [if_neg hne]
  simp only [upsertApply, e]
  rw [if_pos (by
    cases hb : (t.any fun row => row.link == some (pyTake r.link 1000)) with
    | true => rfl
    | false => exact absurd ((linkRows_eq_nil_iff t _).mpr hb) h)]

/-- `linkRows` distributes over appends. -/
theorem linkRows_append (t1 t2 : List ArticleRow) (l : String) :
    linkRows (t1 ++ t2) l = linkRows t1 l ++ linkRows t2 l := by
  unfold linkRows
  rw [List.filter_append]

/-- The freshly inserted row carries the (truncated) link of its
record. -/
theorem linkRows_insertRow (r : UpsertRec) (now : Int) (hne : r.link ≠ "") :
    linkRows [insertRowOf r now] (pyTake r.link 1000) = [insertRowOf r now] := by
  unfold linkRows
  rw [List.filter_cons_of_pos]
  · rfl
  · show ((insertRowOf r now).link == some (pyTake r.link 1000)) = true
    have : (insertRowOf r now).link = some (pyTake r.link 1000) := by
      show optTrunc r.link 1000 = some (pyTake r.link 1000)
      unfold optTrunc
      rw [if_neg hne]
    rw [this]
    exact beq_self_eq_true _

/-- Updating in place permutes with selecting the rows of the link. -/
theorem linkRows_map_update (t : List ArticleRow) (l : String) (r : UpsertRec)
    (now : Int) :
    linkRows (t.map (fun x => if x.link == some l then updateRowOf x r now
        else x)) l
      = (linkRows t l).map (fun x => updateRowOf x r now) := by
  induction t with
  | nil => rfl
  | cons a rest ih =>
    simp only [List.map_cons]
    by_cases ha : (a.link == some l) = true
    · rw [if_pos ha]
      unfold linkRows at ih ⊢
      rw [List.filter_cons_of_pos (p := fun row : ArticleRow => row.link == some l)
          (by show ((updateRowOf a r now).link == some l) = true
              rw [updateRowOf_link]
              exact ha),
        List.filter_cons_of_pos (p := fun row : ArticleRow => row.link == some l) ha,
        List.map_cons, ih]
    · rw [if_neg ha]
      unfold linkRows at ih ⊢
      rw [List.filter_cons_of_neg (p := fun row : ArticleRow => row.link == some l) ha,
        List.filter_cons_of_neg (p := fun row : ArticleRow => row.link == some l) ha, ih]

/-- Folding further upserts of the same link over a table whose only row
for that link is `row` keeps exactly one row for the link, accumulating
the in-place updates. -/
theorem upsertRun_singleton (l : String) (hne : l ≠ "") :
    ∀ (calls : List (UpsertRec × Int)) (t : List ArticleRow)
      (row : ArticleRow),
      (∀ c ∈ calls, c.1.link = l) →
      linkRows t (pyTake l 1000) = [row] →
      linkRows (upsertRun t calls) (pyTake l 1000)
        = [calls.foldl (fun acc c => updateRowOf acc c.1 c.2) row] := by
  intro calls
  induction calls with
  | nil => exact fun t row _ h0 => h0
  | cons c rest ih =>
    intro t row hl h0
    have hc : c.1.link = l := hl c (List.mem_cons_self c rest)
    have happ := upsertApply_present t c.1 c.2 (by rw [hc]; exact hne)
      (by rw [hc, h0]; exact List.cons_ne_nil row [])
    rw [hc] at happ
    have h1 : linkRows (upsertApply t c.1 c.2) (pyTake l 1000)
        = [updateRowOf row c.1 c.2] := by
      rw [happ, linkRows_map_update, h0]
      rfl
    exact ih (upsertApply t c.1 c.2) (updateRowOf row c.1 c.2)
      (fun x hx => hl x (List.mem_cons_of_mem c hx)) h1

/-- A nonempty run of updates collapses to the last update applied to the
base row. -/
theorem foldl_updateRowOf_last :
    ∀ (rest : List (UpsertRec × Int)) (row : ArticleRow)
      (d : UpsertRec × Int), rest ≠ [] →
      rest.foldl (fun acc c => updateRowOf acc c.1 c.2) row
        = updateRowOf row (rest.getLastD d).1 (rest.getLastD d).2 := by
  intro rest
  induction rest with
  | nil => exact fun row d h => absurd rfl h
  | cons c rest ih =>
    intro row d _
    rw [List.foldl_cons]
    by_cases hr : rest = []
    · subst hr
      rfl
    · rw [ih (updateRowOf row c.1 c.2) c hr, updateRowOf_comp,
        List.getLastD_cons]

/-- A run of updates leaves every insert-only column of the base row
unchanged. -/
theorem foldl_updateRowOf_immutable (rest : List (UpsertRec × Int)) :
    ∀ row : ArticleRow,
      (rest.foldl (fun acc c => updateRowOf acc c.1 c.2) row).category
          = row.category
      ∧ (rest.foldl (fun acc c => updateRowOf acc c.1 c.2) row).created_at
          = row.created_at
      ∧ (rest.foldl (fun acc c => updateRowOf acc c.1 c.2) row).uuid
          = row.uuid := by
  induction rest with
  | nil => exact fun row => ⟨rfl, rfl, rfl⟩
  | cons c rest ih =>
    intro row
    rw [List.foldl_cons]
    exact ih (updateRowOf row c.1 c.2)

/-- C1: starting from a table with no row for link `l`, the first upsert
call inserts a fresh row and every later call with the same link updates
the mutable fields of that one row in place — after any such sequence of
calls (across any number of runs) the table holds exactly one row for the
link, whose insert-only columns (category, created_at, uuid) still come
from the first call and whose mutable columns come from the last call. -/
theorem articles_upsert_idempotent_by_link
    (t : List ArticleRow) (l : String) (first : UpsertRec × Int)
    (rest : List (UpsertRec × Int))
    (hne : l ≠ "")
    (hfirst : first.1.link = l)
    (hrest : ∀ c ∈ rest, c.1.link = l)
    (habsent : linkRows t (pyTake l 1000) = []) :
    (linkRows (upsertRun t (first :: rest)) (pyTake l 1000)).length = 1
    ∧ upsertApply t first.1 first.2 = t ++ [insertRowOf first.1 first.2]
    ∧ linkRows (upsertRun t (first :: rest)) (pyTake l 1000)
        = [rest.foldl (fun acc c => updateRowOf acc c.1 c.2)
            (insertRowOf first.1 first.2)]
    ∧ (rest ≠ [] →
        linkRows (upsertRun t (first :: rest)) (pyTake l 1000)
          = [updateRowOf (insertRowOf first.1 first.2)
              (rest.getLastD first).1 (rest.getLastD first).2])
    ∧ (rest.foldl (fun acc c => updateRowOf acc c.1 c.2)
        (insertRowOf first.1 first.2)).category = first.1.category
    ∧ (rest.foldl (fun acc c => updateRowOf acc c.1 c.2)
        (insertRowOf first.1 first.2)).created_at = first.2
    ∧ (rest.foldl (fun acc c => updateRowOf acc c.1 c.2)
        (insertRowOf first.1 first.2)).uuid = first.1.uuid_bytes := by
  have hb : upsertApply t first.1 first.2 = t ++ [insertRowOf first.1 first.2] :=
    upsertApply_absent t first.1 first.2 (by rw [hfirst]; exact hne)
      (by rw [hfirst]; exact habsent)
  have h1 : linkRows (upsertApply t first.1 first.2) (pyTake l 1000)
      = [insertRowOf first.1 first.2] := by
    rw [hb, linkRows_append, habsent, List.nil_append]
    have := linkRows_insertRow first.1 first.2 (by rw [hfirst]; exact hne)
    rw [hfirst] at this
    exact this
  have h3 : linkRows (upsertRun t (first :: rest)) (pyTake l 1000)
      = [rest.foldl (fun acc c => updateRowOf acc c.1 c.2)
          (insertRowOf first.1 first.2)] :=
    upsertRun_singleton l hne rest (upsertApply t first.1 first.2)
      (insertRowOf first.1 first.2) hrest h1
  refine ⟨by rw [h3]; rfl, hb, h3, ?_, ?_, ?_, ?_⟩
  · intro hr
    rw [h3, foldl_updateRowOf_last rest _ first hr]
  · exact (foldl_updateRowOf_immutable rest _).1
  · exact (foldl_updateRowOf_immutable rest _).2.1
  · exact (foldl_updateRowOf_immutable rest _).2.2

/-- Witness for C1: two upserts of the same link into an empty table leave
exactly one row. -/
theorem articles_upsert_idempotent_witness :
    (linkRows (upsertRun [] [(sampleRec, 5), (sampleRec2, 7)])
      (pyTake "L" 1000)).length = 1 :=
  (articles_upsert_idempotent_by_link [] "L" (sampleRec, 5)
    [(sampleRec2, 7)] (by decide) rfl (by decide) rfl).1

/-- A candidate whose publish date does not fall on the current local
calendar date is dropped by the kdramastars step, whatever the other
extracted fields are. -/
theorem kdsStep_not_today (category tfp tg href body iu au : String)
    (d : PyDateTime) (off nowUTC : Int) (rw : RewriterCfg)
    (j : String → JsonParseResult) (uuid : Nat)
    (hd : localDateOf d off ≠ dateOf (nowIn nowUTC off)) :
    kdsStep category tfp tg href body iu au (some d) off nowUTC rw j uuid
      = none := by
  by_cases hb : (body = "" ∨ body.length < 60)
  · simp [kdsStep, hb]
  · unfold localDateOf at hd
    simp only [kdsStep]
    rw [if_neg hb, if_pos hd]

/-- C3: an extracted article with a parsable publish timestamp passes the
freshness filter exactly when its date, read in the configured timezone,
equals the current date there: a yesterday date makes the filter reject
it and the kdramastars step persist nothing, a today date makes the
filter accept it, and any persisted record implies the date was today. -/
theorem freshness_filter_today_only (d : PyDateTime) (off nowUTC : Int) :
    (localDateOf d off = dateOf (nowIn nowUTC off) - 1 →
      is_published_today (some d) off nowUTC = false
      ∧ ∀ (category tfp tg href body iu au : String) (rw : RewriterCfg)
          (j : String → JsonParseResult) (uuid : Nat),
          kdsStep category tfp tg href body iu au (some d) off nowUTC rw j uuid
            = none)
    ∧ (localDateOf d off = dateOf (nowIn nowUTC off) →
      is_published_today (some d) off nowUTC = true)
    ∧ (∀ (category tfp tg href body iu au : String) (rw : RewriterCfg)
        (j : String → JsonParseResult) (uuid : Nat) (rec : UpsertRec),
        kdsStep category tfp tg href body iu au (some d) off nowUTC rw j uuid
          = some rec →
        localDateOf d off = dateOf (nowIn nowUTC off)) := by
  have hiff : is_published_today (some d) off nowUTC
      = (localDateOf d off == dateOf (nowIn nowUTC off)) := rfl
  refine ⟨?_, ?_, ?_⟩
  · intro h
    have hne : localDateOf d off ≠ dateOf (nowIn nowUTC off) := by omega
    refine ⟨?_, ?_⟩
    · rw [hiff]
      exact beq_eq_false_iff_ne.mpr hne
    · intro category tfp tg href body iu au rw j uuid
      exact kdsStep_not_today category tfp tg href body iu au d off nowUTC
        rw j uuid hne
  · intro h
    rw [hiff, h]
    exact beq_self_eq_true _
  · intro category tfp tg href body iu au rw j uuid rec hsome
    by_cases hd : localDateOf d off = dateOf (nowIn nowUTC off)
    · exact hd
    · rw [kdsStep_not_today category tfp tg href body iu au d off nowUTC
        rw j uuid hd] at hsome
      exact absurd hsome (by simp)

/-- Witness for C3: with offset +330, an aware timestamp whose local date
is yesterday is rejected and one whose local date is today is
accepted. -/
theorem freshness_filter_today_only_witness :
    is_published_today (some ⟨9000, some 0⟩) 330 10000 = false
    ∧ is_published_today (some ⟨9800, some 0⟩) 330 10000 = true :=
  ⟨((freshness_filter_today_only ⟨9000, some 0⟩ 330 10000).1 (by decide)).1,
   (freshness_filter_today_only ⟨9800, some 0⟩ 330 10000).2.1 (by decide)⟩

end Mokshiri
